import Mathlib

/-!
# QSettings.value() helper (qpy/QtCore/qpycore_qsettings_value.cpp)

A shallow embedding of `qpycore_qsettings_value` and of its static helpers
`convert_list`, `convert_map`, `convert_hash`, `convert` and
`add_variant_to_dict`.

Pointers that may be NULL are `Option`s.  Everything the helper calls but
does not define (Qt's `QVariant::convert`, the `Chimera` type descriptor, the
sip boxing call and the CPython container calls) is a field of `Runtime`, so
that every statement below holds for all behaviours of those calls.  The calls
made to the settings store, to `QVariant::convert` and to the descriptor are
recorded, in order, in an explicit trace.
-/

/-! ## Data model -/

/-- Tagged variant (`QVariant`): exactly one payload per discriminant. -/
inductive QVariant where
  | invalid
  | bool (b : Bool)
  | int (i : Int)
  | double (d : Rat)
  | string (s : String)
  | stringList (l : List String)
  | list (l : List QVariant)
  | map (m : List (String × QVariant))
  | hash (m : List (String × QVariant))
  | user (typeId : Nat) (payload : Nat)

/-- The value of `QVariant::Map` in Qt's `QVariant::Type` enumeration. -/
abbrev QVariant_Map : Int := 8

/-- The value of `QVariant::List`. -/
abbrev QVariant_List : Int := 9

/-- The value of `QVariant::StringList`. -/
abbrev QVariant_StringList : Int := 11

/-- The value of `QVariant::Hash`. -/
abbrev QVariant_Hash : Int := 28

/-- The value of `QVariant::UserType`: the user-type threshold. -/
abbrev QVariant_UserType : Int := 127

/-- Runtime type tag, `QVariant::type()`: every user type reports
`QVariant::UserType`. -/
def QVariant.type : QVariant → Int
  | .invalid => 0
  | .bool _ => 1
  | .int _ => 2
  | .double _ => 6
  | .map _ => QVariant_Map
  | .list _ => QVariant_List
  | .string _ => 10
  | .stringList _ => QVariant_StringList
  | .hash _ => QVariant_Hash
  | .user _ _ => QVariant_UserType

/-- Payload of a list variant, `QVariant::toList()`. -/
def QVariant.toList : QVariant → List QVariant
  | .list l => l
  | _ => []

/-- Payload of a map variant in iteration order, `QVariant::toMap()`. -/
def QVariant.toMap : QVariant → List (String × QVariant)
  | .map m => m
  | _ => []

/-- Payload of a hash variant in iteration order, `QVariant::toHash()`. -/
def QVariant.toHash : QVariant → List (String × QVariant)
  | .hash m => m
  | _ => []

/-- Foreign (Python) object.  A list carries its item slots, a slot being
`none` while it is still NULL; a dict carries its entries in insertion
order. -/
inductive PyObject where
  | bool (b : Bool)
  | long (i : Int)
  | float (d : Rat)
  | unicode (s : String)
  | type (name : String)
  | sipQString (s : String)
  | sipQVariant (v : QVariant)
  | list (ob_item : List (Option PyObject))
  | dict (entries : List (PyObject × PyObject))

/-- Entries of a dict under construction. -/
abbrev PyDict := List (PyObject × PyObject)

/-- Key comparison used by dict insertion, between two distinct objects: by
value for two objects of the same scalar or string kind (two boxed QStrings
are equal keys when their strings are), never equal otherwise.  The helper
only ever inserts boxed QStrings as keys. -/
def PyObject.keyEq : PyObject → PyObject → Bool
  | .bool a, .bool b => a == b
  | .long a, .long b => a == b
  | .float a, .float b => a == b
  | .unicode a, .unicode b => a == b
  | .sipQString a, .sipQString b => a == b
  | _, _ => false

/-- The variant inside a generic-variant wrapper. -/
def PyObject.unboxVariant : PyObject → Option QVariant
  | .sipQVariant v => some v
  | _ => none

/-- Type descriptor (`Chimera`): its numeric type id and its foreign-object
conversion, which may fail. -/
structure Chimera where
  metatype : Int
  toPyObject : QVariant → Option PyObject

/-- Settings store (`QSettings`): the stored entries. -/
structure QSettings where
  entries : List (String × QVariant)

/-- Store lookup `QSettings::value(key, defaultValue)`: the stored value, or
the default when the key is absent. -/
def QSettings.value (qset : QSettings) (key : String) (defaultValue : QVariant) : QVariant :=
  match qset.entries.find? (fun e => e.1 == key) with
  | some e => e.2
  | none => defaultValue

/-- One recorded external call. -/
inductive Event where
  | settingsValue (key : String)
  | variantConvert (v : QVariant) (t : Int)
  | toPyObject (metatype : Int) (v : QVariant)

/-- Record of external calls, oldest first. -/
abbrev Trace := List Event

/-- Behaviour of everything the helper calls but does not define.
`QVariant_convert v t` is `v.convert(t)`: the reported success and the state
the variant is left in.  The remaining Boolean fields say whether the
corresponding allocation, boxing or insertion succeeds. -/
structure Runtime where
  QT_VERSION : Nat
  Chimera_parse : PyObject → Option Chimera
  QVariant_convert : QVariant → Int → Bool × QVariant
  sipConvertFromNewType_ok : PyObject → Bool
  PyList_New_ok : Nat → Bool
  PyDict_New_ok : Bool
  PyDict_SetItem_ok : PyDict → PyObject → PyObject → Bool

/-- Boxing `sipConvertFromNewType(heap, sipType, 0)`: the wrapper around the
heap copy, or NULL. -/
def sipConvertFromNewType (rt : Runtime) (wrapper : PyObject) : Option PyObject :=
  if rt.sipConvertFromNewType_ok wrapper then some wrapper else none

/-- Entries after storing `value_obj` under `key_obj`: an entry with an equal
key is overwritten, otherwise a new entry is added. -/
def PyDict.store : PyDict → PyObject → PyObject → PyDict
  | [], key_obj, value_obj => [(key_obj, value_obj)]
  | (k, v) :: rest, key_obj, value_obj =>
    if k.keyEq key_obj then (k, value_obj) :: rest
    else (k, v) :: PyDict.store rest key_obj value_obj

/-- Insertion `PyDict_SetItem(dict, key_obj, value_obj)`: return code and the
dict afterwards. -/
def PyDict_SetItem (rt : Runtime) (dict : PyDict) (key_obj value_obj : PyObject) : Int × PyDict :=
  if rt.PyDict_SetItem_ok dict key_obj value_obj then (0, PyDict.store dict key_obj value_obj)
  else (-1, dict)

/-! ## The helper -/

/-- Convert a QVariant to a Python object (`convert`). -/
def convert (rt : Runtime) (ct : Chimera) (value : QVariant) (tr : Trace) :
    Option PyObject × Trace :=
  let r := rt.QVariant_convert value ct.metatype
  let converted := if !r.1 then value else r.2
  (ct.toPyObject converted,
    tr ++ [Event.variantConvert value ct.metatype, Event.toPyObject ct.metatype converted])

/-- The loop of `convert_list`.  `i` is the index and `n` the number of
iterations left, `value.size() - i`, so that the loop condition
`i < value.size()` is `n ≠ 0`; `list` holds the item slots. -/
def convert_list_loop (rt : Runtime) (ct : Chimera) (value : List QVariant) :
    Nat → Nat → List (Option PyObject) → Trace → Option (List (Option PyObject)) × Trace
  | 0, _, list, tr => (some list, tr)
  | n + 1, i, list, tr =>
    match convert rt ct (value.getD i QVariant.invalid) tr with
    | (none, tr1) => (none, tr1)
    | (some el, tr1) => convert_list_loop rt ct value n (i + 1) (list.set i (some el)) tr1

/-- Convert a QVariantList to a list of Python objects (`convert_list`). -/
def convert_list (rt : Runtime) (ct : Chimera) (value : List QVariant) (tr : Trace) :
    Option PyObject × Trace :=
  if rt.PyList_New_ok value.length then
    match convert_list_loop rt ct value value.length 0 (List.replicate value.length none) tr with
    | (some list, tr1) => (some (PyObject.list list), tr1)
    | (none, tr1) => (none, tr1)
  else (none, tr)

/-- Add a QVariant to a Python dict with a QString key
(`add_variant_to_dict`): return code, dict and trace afterwards. -/
def add_variant_to_dict (rt : Runtime) (ct : Chimera) (dict : PyDict) (key : String)
    (value : QVariant) (tr : Trace) : Int × PyDict × Trace :=
  match sipConvertFromNewType rt (PyObject.sipQString key) with
  | none => (0, dict, tr)
  | some key_obj =>
    match convert rt ct value tr with
    | (none, tr1) => (0, dict, tr1)
    | (some value_obj, tr1) =>
      let rc := PyDict_SetItem rt dict key_obj value_obj
      (rc.1, rc.2, tr1)

/-- The iteration shared by `convert_map` and `convert_hash`, from the
iterator's current position to the end. -/
def convert_dict_loop (rt : Runtime) (ct : Chimera) :
    List (String × QVariant) → PyDict → Trace → Option PyDict × Trace
  | [], dict, tr => (some dict, tr)
  | it :: rest, dict, tr =>
    let r := add_variant_to_dict rt ct dict it.1 it.2 tr
    if r.1 < 0 then (none, r.2.2)
    else convert_dict_loop rt ct rest r.2.1 r.2.2

/-- Convert a QVariantMap to a dict of Python objects (`convert_map`). -/
def convert_map (rt : Runtime) (ct : Chimera) (value : List (String × QVariant)) (tr : Trace) :
    Option PyObject × Trace :=
  if rt.PyDict_New_ok then
    match convert_dict_loop rt ct value [] tr with
    | (some dict, tr1) => (some (PyObject.dict dict), tr1)
    | (none, tr1) => (none, tr1)
  else (none, tr)

/-- Convert a QVariantHash to a dict of Python objects (`convert_hash`). -/
def convert_hash (rt : Runtime) (ct : Chimera) (value : List (String × QVariant)) (tr : Trace) :
    Option PyObject × Trace :=
  if rt.PyDict_New_ok then
    match convert_dict_loop rt ct value [] tr with
    | (some dict, tr1) => (some (PyObject.dict dict), tr1)
    | (none, tr1) => (none, tr1)
  else (none, tr)

/-- The retrieved value after the string-list step: a QStringList that is not
wanted as one is converted in place to a QVariantList. -/
def normalise (rt : Runtime) (wanted : Int) (value : QVariant) (tr : Trace) : QVariant × Trace :=
  if wanted ≠ QVariant_StringList ∧ value.type = QVariant_StringList then
    ((rt.QVariant_convert value QVariant_List).2, tr ++ [Event.variantConvert value QVariant_List])
  else (value, tr)

/-- Implement QSettings.value() with an optional explicit result type
(`qpycore_qsettings_value`). -/
def qpycore_qsettings_value (rt : Runtime) (qset : QSettings) (key : String)
    (defaultValue : QVariant) (type : Option PyObject) (tr : Trace) : Option PyObject × Trace :=
  match type with
  | some ty =>
    match rt.Chimera_parse ty with
    | none => (none, tr)
    | some ct =>
      let value := qset.value key defaultValue
      let tr1 := tr ++ [Event.settingsValue key]
      if ct.metatype < QVariant_UserType then
        let wanted := ct.metatype
        let nv := normalise rt wanted value tr1
        if wanted ≠ QVariant_List ∧ nv.1.type = QVariant_List then
          convert_list rt ct nv.1.toList nv.2
        else if wanted ≠ QVariant_Map ∧ nv.1.type = QVariant_Map then
          convert_map rt ct nv.1.toMap nv.2
        else if 0x040500 ≤ rt.QT_VERSION ∧ wanted ≠ QVariant_Hash ∧ nv.1.type = QVariant_Hash then
          convert_hash rt ct nv.1.toHash nv.2
        else
          convert rt ct nv.1 nv.2
      else
        (ct.toPyObject value, tr1 ++ [Event.toPyObject ct.metatype value])
  | none =>
    let value := qset.value key defaultValue
    (sipConvertFromNewType rt (PyObject.sipQVariant value), tr ++ [Event.settingsValue key])

/-! ## Specification-side definitions -/

/-- Short-circuiting element-wise map of `convert`, as List Conversion is
specified: convert the elements in order with the same descriptor and stop at
the first failure, leaving the remaining elements unattempted. -/
def mapConvert (rt : Runtime) (ct : Chimera) : List QVariant → Trace → Option (List PyObject) × Trace
  | [], tr => (some [], tr)
  | v :: rest, tr =>
    match convert rt ct v tr with
    | (none, tr1) => (none, tr1)
    | (some el, tr1) =>
      match mapConvert rt ct rest tr1 with
      | (none, tr2) => (none, tr2)
      | (some els, tr2) => (some (el :: els), tr2)

/-- The external calls `convert` records for each element of a list, in
order. -/
def convertCalls (rt : Runtime) (ct : Chimera) : List QVariant → Trace
  | [] => []
  | v :: rest => (convert rt ct v []).2 ++ convertCalls rt ct rest

/-! ## A concrete runtime, used to evaluate the helper -/

/-- The Python object for a scalar variant. -/
def scalarToPy : QVariant → Option PyObject
  | .bool b => some (PyObject.bool b)
  | .int i => some (PyObject.long i)
  | .double d => some (PyObject.float d)
  | .string s => some (PyObject.unicode s)
  | _ => none

/-- The Python objects for a list of scalar variants, failing on the first
that is not a scalar. -/
def scalarsToPy : List QVariant → Option (List (Option PyObject))
  | [] => some []
  | v :: rest =>
    match scalarToPy v, scalarsToPy rest with
    | some o, some os => some (some o :: os)
    | _, _ => none

/-- The Python object for a variant: a scalar, a list of scalars, or a user
type kept inside its generic wrapper. -/
def variantToPy : QVariant → Option PyObject
  | .list l =>
    match scalarsToPy l with
    | some os => some (PyObject.list os)
    | none => none
  | .user typeId payload => some (PyObject.sipQVariant (QVariant.user typeId payload))
  | v => scalarToPy v

/-- The type id `QVariant::userType()`: the registered id of a user type, the
built-in tag otherwise. -/
def QVariant.userType : QVariant → Int
  | .user typeId _ => typeId
  | v => v.type

/-- A descriptor that rejects a variant whose type id is not its own and
converts any other. -/
def sampleChimera (metatype : Int) : Chimera where
  metatype := metatype
  toPyObject v := if v.userType = metatype then variantToPy v else none

/-- A variant conversion in the manner of Qt: a no-op on the requested type,
string list to list, integer to double, the string "42" to an integer; every
other conversion fails and leaves a cleared variant behind. -/
def sampleVariantConvert (v : QVariant) (t : Int) : Bool × QVariant :=
  if v.type = t then (true, v)
  else
    match v with
    | .stringList l => if t = QVariant_List then (true, QVariant.list (l.map QVariant.string)) else (false, QVariant.invalid)
    | .int i => if t = 6 then (true, QVariant.double i) else (false, QVariant.invalid)
    | .string s => if t = 2 ∧ s = "42" then (true, QVariant.int 42) else (false, QVariant.int 0)
    | _ => (false, QVariant.invalid)

/-- Parsing of the type objects `int`, `float`, `dict`, `list`, `unicode` and
`QStringList`, and of a user type registered as 1024; anything else is
rejected. -/
def sampleParse : PyObject → Option Chimera
  | .type name =>
    if name = "int" then some (sampleChimera 2)
    else if name = "float" then some (sampleChimera 6)
    else if name = "dict" then some (sampleChimera QVariant_Map)
    else if name = "list" then some (sampleChimera QVariant_List)
    else if name = "unicode" then some (sampleChimera 10)
    else if name = "QStringList" then some (sampleChimera QVariant_StringList)
    else if name = "Custom" then some (sampleChimera 1024)
    else none
  | _ => none

/-- A runtime on Qt 4.7.4 in which every allocation, boxing and insertion
succeeds. -/
def sampleRuntime : Runtime where
  QT_VERSION := 0x040704
  Chimera_parse := sampleParse
  QVariant_convert := sampleVariantConvert
  sipConvertFromNewType_ok := fun _ => true
  PyList_New_ok := fun _ => true
  PyDict_New_ok := true
  PyDict_SetItem_ok := fun _ _ _ => true

/-- The sample runtime with list allocation failing. -/
def noListRuntime : Runtime :=
  { sampleRuntime with PyList_New_ok := fun _ => false }

/-- The sample runtime with dict allocation failing. -/
def noDictRuntime : Runtime :=
  { sampleRuntime with PyDict_New_ok := false }

/-- The sample runtime with the boxing of the key "a" failing. -/
def noKeyRuntime : Runtime :=
  { sampleRuntime with
    sipConvertFromNewType_ok := fun w =>
      match w with
      | .sipQString s => s != "a"
      | _ => true }

/-- A descriptor for `unicode` that converts whatever variant it is given. -/
def lenientChimera : Chimera where
  metatype := 10
  toPyObject := variantToPy

/-- The sample runtime with every type object parsed to the lenient
descriptor. -/
def lenientRuntime : Runtime :=
  { sampleRuntime with Chimera_parse := fun _ => some lenientChimera }

/-- A store holding a list of integers, a string list, a list of strings, a
nested list and a map. -/
def sampleStore : QSettings where
  entries :=
    [("ints", QVariant.list [QVariant.int 1, QVariant.int 2, QVariant.int 3]),
     ("names", QVariant.stringList ["a", "b"]),
     ("strings", QVariant.list [QVariant.string "a", QVariant.string "b"]),
     ("nested", QVariant.list [QVariant.list [QVariant.int 1, QVariant.int 2], QVariant.list [QVariant.int 3]]),
     ("sizes", QVariant.map [("x", QVariant.int 1)])]

/-! ## Lemmas on `convert` and the list loop -/

theorem convert_fst (rt : Runtime) (ct : Chimera) (v : QVariant) (tr : Trace) :
    (convert rt ct v tr).1 = (convert rt ct v []).1 := by
  simp [convert]

theorem convert_snd (rt : Runtime) (ct : Chimera) (v : QVariant) (tr : Trace) :
    (convert rt ct v tr).2 = tr ++ (convert rt ct v []).2 := by
  simp [convert]

theorem convert_split (rt : Runtime) (ct : Chimera) (v : QVariant) (tr : Trace) :
    convert rt ct v tr = ((convert rt ct v []).1, tr ++ (convert rt ct v []).2) := by
  simp [convert]

theorem convertCalls_append (rt : Runtime) (ct : Chimera) (xs ys : List QVariant) :
    convertCalls rt ct (xs ++ ys) = convertCalls rt ct xs ++ convertCalls rt ct ys := by
  induction xs with
  | nil => simp [convertCalls]
  | cons x xs ih => simp [convertCalls, ih]

/-- When every element converts, the short-circuiting map yields all the
converted elements and records every element's calls. -/
theorem mapConvert_all (rt : Runtime) (ct : Chimera) (vs : List QVariant) :
    ∀ tr : Trace, (∀ v ∈ vs, (convert rt ct v []).1 ≠ none) →
      ∃ os : List PyObject, os.map some = vs.map (fun v => (convert rt ct v []).1) ∧
        mapConvert rt ct vs tr = (some os, tr ++ convertCalls rt ct vs) := by
  induction vs with
  | nil => intro tr _; exact ⟨[], by simp [mapConvert, convertCalls]⟩
  | cons v rest ih =>
    intro tr h
    have hv : (convert rt ct v []).1 ≠ none := h v (List.mem_cons_self _ _)
    obtain ⟨el, hel⟩ := Option.ne_none_iff_exists'.mp hv
    obtain ⟨os, hos, hmap⟩ :=
      ih (tr ++ (convert rt ct v []).2) (fun w hw => h w (List.mem_cons_of_mem _ hw))
    refine ⟨el :: os, by simp [hos, hel], ?_⟩
    rw [mapConvert, convert_split rt ct v tr, hel]
    simp only [hmap, convertCalls, List.append_assoc]

/-- When an element fails after a prefix that converts, the short-circuiting
map fails and records the calls of the prefix and of the failing element
only. -/
theorem mapConvert_fail (rt : Runtime) (ct : Chimera) (pre : List QVariant) (x : QVariant)
    (post : List QVariant) :
    ∀ tr : Trace, (∀ v ∈ pre, (convert rt ct v []).1 ≠ none) → (convert rt ct x []).1 = none →
      mapConvert rt ct (pre ++ x :: post) tr = (none, tr ++ convertCalls rt ct (pre ++ [x])) := by
  induction pre with
  | nil =>
    intro tr _ hx
    rw [List.nil_append, mapConvert, convert_split rt ct x tr, hx]
    simp [convertCalls]
  | cons v rest ih =>
    intro tr h hx
    have hv : (convert rt ct v []).1 ≠ none := h v (List.mem_cons_self _ _)
    obtain ⟨el, hel⟩ := Option.ne_none_iff_exists'.mp hv
    have hrest := ih (tr ++ (convert rt ct v []).2) (fun w hw => h w (List.mem_cons_of_mem _ hw)) hx
    rw [List.cons_append, mapConvert, convert_split rt ct v tr, hel]
    simp only [hrest, List.cons_append, convertCalls, List.append_assoc]
    rfl

/-- Loop invariant of `convert_list`: with the elements of `pre` converted
into the first slots and those of `post` still to do, the loop finishes as the
short-circuiting map over `post` does. -/
theorem convert_list_loop_eq (rt : Runtime) (ct : Chimera) (post : List QVariant) :
    ∀ (pre : List QVariant) (done : List PyObject) (tr : Trace), done.length = pre.length →
      convert_list_loop rt ct (pre ++ post) post.length pre.length
          (done.map some ++ List.replicate post.length none) tr =
        match mapConvert rt ct post tr with
        | (some els, tr1) => (some ((done ++ els).map some), tr1)
        | (none, tr1) => (none, tr1) := by
  induction post with
  | nil => intro pre done tr _; simp [convert_list_loop, mapConvert]
  | cons x rest ih =>
    intro pre done tr hlen
    have hget : (pre ++ x :: rest).getD pre.length QVariant.invalid = x := by
      rw [List.getD_append_right _ _ _ _ (le_refl _)]; simp
    have hset : ∀ el : PyObject,
        (done.map some ++ List.replicate (rest.length + 1) none).set pre.length (some el) =
          (done ++ [el]).map some ++ List.replicate rest.length none := by
      intro el
      rw [← hlen]
      simp [List.set_append_right, List.replicate_succ]
    simp only [List.length_cons, convert_list_loop, hget, mapConvert]
    rw [convert_split rt ct x tr]
    cases hx : (convert rt ct x []).1 with
    | none => simp
    | some el =>
      simp only []
      have hpre : pre ++ x :: rest = (pre ++ [x]) ++ rest := by simp
      have hidx : pre.length + 1 = (pre ++ [x]).length := by simp
      rw [hset el, hpre, hidx, ih (pre ++ [x]) (done ++ [el]) _ (by simp [hlen])]
      cases mapConvert rt ct rest (tr ++ (convert rt ct x []).2) with
      | mk r t => cases r <;> simp

/-- With the list allocated, `convert_list` is the short-circuiting map with
every slot of the new list filled. -/
theorem convert_list_eq_map (rt : Runtime) (ct : Chimera) (value : List QVariant) (tr : Trace)
    (hnew : rt.PyList_New_ok value.length = true) :
    convert_list rt ct value tr =
      match mapConvert rt ct value tr with
      | (some els, tr1) => (some (PyObject.list (els.map some)), tr1)
      | (none, tr1) => (none, tr1) := by
  have h := convert_list_loop_eq rt ct value [] [] tr rfl
  simp only [List.nil_append, List.length_nil, List.map_nil] at h
  simp only [convert_list, hnew, if_true, h]
  cases mapConvert rt ct value tr with
  | mk r t => cases r <;> rfl

/-- With the list allocated and every element converting, `convert_list`
returns the list of the converted elements. -/
theorem convert_list_all (rt : Runtime) (ct : Chimera) (value : List QVariant) (tr : Trace)
    (hnew : rt.PyList_New_ok value.length = true)
    (hall : ∀ v ∈ value, (convert rt ct v []).1 ≠ none) :
    convert_list rt ct value tr =
      (some (PyObject.list (value.map (fun v => (convert rt ct v []).1))),
        tr ++ convertCalls rt ct value) := by
  obtain ⟨os, hos, hmap⟩ := mapConvert_all rt ct value tr hall
  rw [convert_list_eq_map rt ct value tr hnew, hmap, ← hos]

/-- With the list allocated and a first failing element, `convert_list`
fails having attempted that element and the ones before it only. -/
theorem convert_list_fail (rt : Runtime) (ct : Chimera) (pre : List QVariant) (x : QVariant)
    (post : List QVariant) (tr : Trace)
    (hnew : rt.PyList_New_ok (pre ++ x :: post).length = true)
    (hpre : ∀ v ∈ pre, (convert rt ct v []).1 ≠ none) (hx : (convert rt ct x []).1 = none) :
    convert_list rt ct (pre ++ x :: post) tr = (none, tr ++ convertCalls rt ct (pre ++ [x])) := by
  rw [convert_list_eq_map rt ct _ tr hnew, mapConvert_fail rt ct pre x post tr hpre hx]

/-! ## Lemmas on the dict loop -/

theorem PyDict_store_fresh (dict : PyDict) (k v : PyObject)
    (h : ∀ p ∈ dict, p.1.keyEq k = false) : PyDict.store dict k v = dict ++ [(k, v)] := by
  induction dict with
  | nil => rfl
  | cons p rest ih =>
    obtain ⟨pk, pv⟩ := p
    have hp : pk.keyEq k = false := h (pk, pv) (List.mem_cons_self _ _)
    simp [PyDict.store, hp, ih (fun q hq => h q (List.mem_cons_of_mem _ hq))]

theorem keyEq_sipQString (a b : String) :
    (PyObject.sipQString a).keyEq (PyObject.sipQString b) = (a == b) := rfl

/-- The dict loop when every key boxes, every value converts and every
insertion succeeds, no key being in the dict yet or repeated: each entry is
appended as (boxed key, converted value). -/
theorem convert_dict_loop_all (rt : Runtime) (ct : Chimera) (m : List (String × QVariant)) :
    ∀ (dict : PyDict) (tr : Trace),
      (∀ p ∈ dict, ∀ e ∈ m, p.1.keyEq (PyObject.sipQString e.1) = false) →
      (m.map Prod.fst).Nodup →
      (∀ e ∈ m, rt.sipConvertFromNewType_ok (PyObject.sipQString e.1) = true) →
      (∀ e ∈ m, (convert rt ct e.2 []).1 ≠ none) →
      (∀ e ∈ m, ∀ (d : PyDict) (o : PyObject),
        rt.PyDict_SetItem_ok d (PyObject.sipQString e.1) o = true) →
      ∃ items : PyDict,
        items.map (fun p => (p.1, some p.2)) =
          m.map (fun e => (PyObject.sipQString e.1, (convert rt ct e.2 []).1)) ∧
        convert_dict_loop rt ct m dict tr =
          (some (dict ++ items), tr ++ convertCalls rt ct (m.map Prod.snd)) := by
  induction m with
  | nil => intro dict tr _ _ _ _ _; exact ⟨[], by simp [convert_dict_loop, convertCalls]⟩
  | cons e rest ih =>
    intro dict tr hfresh hnodup hbox hconv hins
    have he : e ∈ e :: rest := List.mem_cons_self _ _
    obtain ⟨el, hel⟩ := Option.ne_none_iff_exists'.mp (hconv e he)
    simp only [List.map_cons, List.nodup_cons] at hnodup
    have hfresh' : ∀ p ∈ dict ++ [(PyObject.sipQString e.1, el)], ∀ e' ∈ rest,
        p.1.keyEq (PyObject.sipQString e'.1) = false := by
      intro p hp e' he'
      rcases List.mem_append.mp hp with hp | hp
      · exact hfresh p hp e' (List.mem_cons_of_mem _ he')
      · simp only [List.mem_singleton] at hp
        subst hp
        simp only [keyEq_sipQString, beq_eq_false_iff_ne, ne_eq]
        intro heq
        exact hnodup.1 (heq ▸ List.mem_map_of_mem Prod.fst he')
    obtain ⟨items, hitems, hloop⟩ :=
      ih (dict ++ [(PyObject.sipQString e.1, el)]) (tr ++ (convert rt ct e.2 []).2) hfresh'
        hnodup.2 (fun e' he' => hbox e' (List.mem_cons_of_mem _ he'))
        (fun e' he' => hconv e' (List.mem_cons_of_mem _ he'))
        (fun e' he' => hins e' (List.mem_cons_of_mem _ he'))
    refine ⟨(PyObject.sipQString e.1, el) :: items, by simp [hitems, hel], ?_⟩
    have hstore := PyDict_store_fresh dict (PyObject.sipQString e.1) el
      (fun p hp => hfresh p hp e he)
    simp only [convert_dict_loop, add_variant_to_dict, sipConvertFromNewType, hbox e he, if_true]
    rw [convert_split rt ct e.2 tr, hel]
    simp only [PyDict_SetItem, hins e he, if_true, hstore, lt_self_iff_false, if_false, hloop]
    simp [convertCalls]

theorem convert_list_loop_fst (rt : Runtime) (ct : Chimera) (value : List QVariant) (n : Nat) :
    ∀ (i : Nat) (list : List (Option PyObject)) (tr tr' : Trace),
      (convert_list_loop rt ct value n i list tr).1 =
        (convert_list_loop rt ct value n i list tr').1 := by
  induction n with
  | zero => intro i list tr tr'; rfl
  | succ n ih =>
    intro i list tr tr'
    simp only [convert_list_loop]
    rw [convert_split rt ct _ tr, convert_split rt ct _ tr']
    cases (convert rt ct (value.getD i QVariant.invalid) []).1 with
    | none => rfl
    | some el => exact ih _ _ _ _

/-- The object `convert_list` returns does not depend on the calls recorded
before it. -/
theorem convert_list_fst (rt : Runtime) (ct : Chimera) (value : List QVariant) (tr tr' : Trace) :
    (convert_list rt ct value tr).1 = (convert_list rt ct value tr').1 := by
  unfold convert_list
  split
  · have h := convert_list_loop_fst rt ct value value.length 0
      (List.replicate value.length none) tr tr'
    revert h
    cases convert_list_loop rt ct value value.length 0 (List.replicate value.length none) tr with
    | mk r t =>
      cases convert_list_loop rt ct value value.length 0 (List.replicate value.length none) tr' with
      | mk r' t' =>
        intro h
        simp only at h
        subst h
        cases r <;> rfl
  · rfl

/-! ## The claims -/

/-- C1: for a requested built-in type (type id below the user-type threshold,
hash support compiled in) and the retrieved variant as it is after the
string-list step, `qpycore_qsettings_value` returns `convert_list` of the
variant's elements when the wanted type is not list and the actual type is
list, otherwise `convert_map` when wanted is not map and actual is map,
otherwise `convert_hash` when wanted is not hash and actual is hash, otherwise
`convert` of the whole variant.  In particular a retrieved list is converted
element by element when any type but list is requested, and is handed whole to
`convert` (its elements untouched by the helper) when list is requested. -/
theorem qsettings_value_builtin_dispatch (rt : Runtime) (qset : QSettings) (key : String)
    (defaultValue : QVariant) (ty : PyObject) (ct : Chimera) (tr : Trace)
    (value : QVariant) (tr1 : Trace)
    (hparse : rt.Chimera_parse ty = some ct)
    (hbuiltin : ct.metatype < QVariant_UserType)
    (hhash : 0x040500 ≤ rt.QT_VERSION)
    (hnorm : normalise rt ct.metatype (qset.value key defaultValue)
      (tr ++ [Event.settingsValue key]) = (value, tr1)) :
    (qpycore_qsettings_value rt qset key defaultValue (some ty) tr =
      if ct.metatype ≠ QVariant_List ∧ value.type = QVariant_List then
        convert_list rt ct value.toList tr1
      else if ct.metatype ≠ QVariant_Map ∧ value.type = QVariant_Map then
        convert_map rt ct value.toMap tr1
      else if ct.metatype ≠ QVariant_Hash ∧ value.type = QVariant_Hash then
        convert_hash rt ct value.toHash tr1
      else convert rt ct value tr1) ∧
    (∀ l : List QVariant, value = QVariant.list l → ct.metatype ≠ QVariant_List →
      qpycore_qsettings_value rt qset key defaultValue (some ty) tr = convert_list rt ct l tr1) ∧
    (∀ l : List QVariant, value = QVariant.list l → ct.metatype = QVariant_List →
      qpycore_qsettings_value rt qset key defaultValue (some ty) tr =
        convert rt ct (QVariant.list l) tr1) := by
  have main : qpycore_qsettings_value rt qset key defaultValue (some ty) tr =
      if ct.metatype ≠ QVariant_List ∧ value.type = QVariant_List then
        convert_list rt ct value.toList tr1
      else if ct.metatype ≠ QVariant_Map ∧ value.type = QVariant_Map then
        convert_map rt ct value.toMap tr1
      else if ct.metatype ≠ QVariant_Hash ∧ value.type = QVariant_Hash then
        convert_hash rt ct value.toHash tr1
      else convert rt ct value tr1 := by
    simp only [qpycore_qsettings_value, hparse, hbuiltin, if_true, hnorm, hhash, true_and]
  refine ⟨main, ?_, ?_⟩
  · intro l hl hne
    rw [main, hl]
    simp [QVariant.type, QVariant.toList, hne]
  · intro l hl heq
    rw [main, hl]
    simp [QVariant.type, heq]

/-- Witness for C1 on the sample runtime: the stored list [1, 2, 3] requested
as `float` goes through `convert_list` and comes back as [1.0, 2.0, 3.0];
requested as `list` it goes whole through `convert` and comes back as
[1, 2, 3]. -/
theorem qsettings_value_builtin_dispatch_witness :
    (qpycore_qsettings_value sampleRuntime sampleStore "ints" QVariant.invalid
        (some (PyObject.type "float")) [] =
      convert_list sampleRuntime (sampleChimera 6)
        [QVariant.int 1, QVariant.int 2, QVariant.int 3] [Event.settingsValue "ints"]) ∧
    (qpycore_qsettings_value sampleRuntime sampleStore "ints" QVariant.invalid
        (some (PyObject.type "float")) []).1 =
      some (PyObject.list
        [some (PyObject.float 1), some (PyObject.float 2), some (PyObject.float 3)]) ∧
    (qpycore_qsettings_value sampleRuntime sampleStore "ints" QVariant.invalid
        (some (PyObject.type "list")) [] =
      convert sampleRuntime (sampleChimera QVariant_List)
        (QVariant.list [QVariant.int 1, QVariant.int 2, QVariant.int 3])
        [Event.settingsValue "ints"]) ∧
    (qpycore_qsettings_value sampleRuntime sampleStore "ints" QVariant.invalid
        (some (PyObject.type "list")) []).1 =
      some (PyObject.list
        [some (PyObject.long 1), some (PyObject.long 2), some (PyObject.long 3)]) :=
  ⟨(qsettings_value_builtin_dispatch sampleRuntime sampleStore "ints" QVariant.invalid
      (PyObject.type "float") (sampleChimera 6) []
      (QVariant.list [QVariant.int 1, QVariant.int 2, QVariant.int 3])
      [Event.settingsValue "ints"] rfl (by decide) (by decide) rfl).2.1 _ rfl (by decide),
    rfl,
    (qsettings_value_builtin_dispatch sampleRuntime sampleStore "ints" QVariant.invalid
      (PyObject.type "list") (sampleChimera QVariant_List) []
      (QVariant.list [QVariant.int 1, QVariant.int 2, QVariant.int 3])
      [Event.settingsValue "ints"] rfl (by decide) (by decide) rfl).2.2 _ rfl rfl,
    rfl⟩

/-- C4: `convert` returns the descriptor's conversion of the coerced copy when
coercing the variant to the descriptor's type succeeds, and of the original,
unchanged variant when the coercion fails; the descriptor is called exactly
once, after the one coercion attempt, whatever that attempt reports and
whatever state it leaves the copy in, so `convert` fails exactly when the
descriptor's conversion of that variant fails. -/
theorem convert_coerces_or_falls_back (rt : Runtime) (ct : Chimera) (v : QVariant) (tr : Trace) :
    ((rt.QVariant_convert v ct.metatype).1 = true →
      convert rt ct v tr =
        (ct.toPyObject (rt.QVariant_convert v ct.metatype).2,
          tr ++ [Event.variantConvert v ct.metatype,
            Event.toPyObject ct.metatype (rt.QVariant_convert v ct.metatype).2])) ∧
    ((rt.QVariant_convert v ct.metatype).1 = false →
      convert rt ct v tr =
        (ct.toPyObject v,
          tr ++ [Event.variantConvert v ct.metatype, Event.toPyObject ct.metatype v])) := by
  constructor <;> intro h <;> simp [convert, h]

/-- Witness for C4 on the sample runtime: the string "notanumber" requested as
integer does not coerce (the attempt leaves the integer 0 behind), and the
descriptor is given the string "notanumber". -/
theorem convert_coerces_or_falls_back_witness :
    sampleVariantConvert (QVariant.string "notanumber") 2 = (false, QVariant.int 0) ∧
    convert sampleRuntime (sampleChimera 2) (QVariant.string "notanumber") [] =
      ((sampleChimera 2).toPyObject (QVariant.string "notanumber"),
        [Event.variantConvert (QVariant.string "notanumber") 2,
          Event.toPyObject 2 (QVariant.string "notanumber")]) ∧
    convert sampleRuntime (sampleChimera 2) (QVariant.string "42") [] =
      ((sampleChimera 2).toPyObject (QVariant.int 42),
        [Event.variantConvert (QVariant.string "42") 2, Event.toPyObject 2 (QVariant.int 42)]) :=
  ⟨rfl,
    (convert_coerces_or_falls_back sampleRuntime (sampleChimera 2)
      (QVariant.string "notanumber") []).2 rfl,
    (convert_coerces_or_falls_back sampleRuntime (sampleChimera 2)
      (QVariant.string "42") []).1 rfl⟩

/-- C5: for a descriptor whose type id is at or above the user-type threshold
and any retrieved variant, `qpycore_qsettings_value` returns exactly the
descriptor's conversion of the whole retrieved variant; the only calls made
are the store lookup and that conversion (no `QVariant::convert`, no container
conversion), and when the conversion fails the call fails. -/
theorem qsettings_value_user_type (rt : Runtime) (qset : QSettings) (key : String)
    (defaultValue : QVariant) (ty : PyObject) (ct : Chimera) (tr : Trace)
    (hparse : rt.Chimera_parse ty = some ct)
    (huser : QVariant_UserType ≤ ct.metatype) :
    qpycore_qsettings_value rt qset key defaultValue (some ty) tr =
      (ct.toPyObject (qset.value key defaultValue),
        tr ++ [Event.settingsValue key,
          Event.toPyObject ct.metatype (qset.value key defaultValue)]) ∧
    (ct.toPyObject (qset.value key defaultValue) = none →
      (qpycore_qsettings_value rt qset key defaultValue (some ty) tr).1 = none) := by
  have hlt : ¬ ct.metatype < QVariant_UserType := not_lt.mpr huser
  have main : qpycore_qsettings_value rt qset key defaultValue (some ty) tr =
      (ct.toPyObject (qset.value key defaultValue),
        tr ++ [Event.settingsValue key,
          Event.toPyObject ct.metatype (qset.value key defaultValue)]) := by
    simp [qpycore_qsettings_value, hparse, hlt]
  exact ⟨main, fun h => by rw [main, h]⟩

/-- Witness for C5 on the sample runtime, with the user type registered as
1024 requested: a stored string list and a stored map reach the descriptor
whole (and are rejected by it), and a user-type default is returned inside
its wrapper. -/
theorem qsettings_value_user_type_witness :
    qpycore_qsettings_value sampleRuntime sampleStore "names" QVariant.invalid
        (some (PyObject.type "Custom")) [] =
      (none, [Event.settingsValue "names",
        Event.toPyObject 1024 (QVariant.stringList ["a", "b"])]) ∧
    qpycore_qsettings_value sampleRuntime sampleStore "sizes" QVariant.invalid
        (some (PyObject.type "Custom")) [] =
      (none, [Event.settingsValue "sizes",
        Event.toPyObject 1024 (QVariant.map [("x", QVariant.int 1)])]) ∧
    qpycore_qsettings_value sampleRuntime sampleStore "absent" (QVariant.user 1024 7)
        (some (PyObject.type "Custom")) [] =
      (some (PyObject.sipQVariant (QVariant.user 1024 7)),
        [Event.settingsValue "absent", Event.toPyObject 1024 (QVariant.user 1024 7)]) :=
  ⟨(qsettings_value_user_type sampleRuntime sampleStore "names" QVariant.invalid
      (PyObject.type "Custom") (sampleChimera 1024) [] rfl (by decide)).1,
    (qsettings_value_user_type sampleRuntime sampleStore "sizes" QVariant.invalid
      (PyObject.type "Custom") (sampleChimera 1024) [] rfl (by decide)).1,
    (qsettings_value_user_type sampleRuntime sampleStore "absent" (QVariant.user 1024 7)
      (PyObject.type "Custom") (sampleChimera 1024) [] rfl (by decide)).1⟩

/-- C8: with no type specification `qpycore_qsettings_value` makes the store
lookup and nothing else, and returns the generic-variant box of the variant
the lookup yields (the default when no entry has the key): when the boxing
succeeds, unboxing the result gives that variant back unchanged; when the
boxing fails, the call fails. -/
theorem qsettings_value_no_type (rt : Runtime) (qset : QSettings) (key : String)
    (defaultValue : QVariant) (tr : Trace) :
    qpycore_qsettings_value rt qset key defaultValue none tr =
      (sipConvertFromNewType rt (PyObject.sipQVariant (qset.value key defaultValue)),
        tr ++ [Event.settingsValue key]) ∧
    (rt.sipConvertFromNewType_ok (PyObject.sipQVariant (qset.value key defaultValue)) = true →
      ∃ obj : PyObject,
        (qpycore_qsettings_value rt qset key defaultValue none tr).1 = some obj ∧
        obj.unboxVariant = some (qset.value key defaultValue)) ∧
    (rt.sipConvertFromNewType_ok (PyObject.sipQVariant (qset.value key defaultValue)) = false →
      (qpycore_qsettings_value rt qset key defaultValue none tr).1 = none) ∧
    ((∀ e ∈ qset.entries, e.1 ≠ key) → qset.value key defaultValue = defaultValue) ∧
    (∀ (v : QVariant) (rest : List (String × QVariant)),
      qset.entries = (key, v) :: rest → qset.value key defaultValue = v) := by
  refine ⟨rfl, ?_, ?_, ?_, ?_⟩
  · intro h
    exact ⟨PyObject.sipQVariant (qset.value key defaultValue),
      by simp [qpycore_qsettings_value, sipConvertFromNewType, h], rfl⟩
  · intro h
    simp [qpycore_qsettings_value, sipConvertFromNewType, h]
  · intro h
    have hfind : qset.entries.find? (fun e => e.1 == key) = none := by
      rw [List.find?_eq_none]
      intro e he
      simpa using h e he
    simp [QSettings.value, hfind]
  · intro v rest h
    simp [QSettings.value, h]

/-- Witness for C8 on the sample runtime: the stored nested list and an absent
key's default come back boxed and unchanged, and the lookup is the only
recorded call. -/
theorem qsettings_value_no_type_witness :
    qpycore_qsettings_value sampleRuntime sampleStore "nested" QVariant.invalid none [] =
      (some (PyObject.sipQVariant (QVariant.list
          [QVariant.list [QVariant.int 1, QVariant.int 2], QVariant.list [QVariant.int 3]])),
        [Event.settingsValue "nested"]) ∧
    qpycore_qsettings_value sampleRuntime sampleStore "absent" (QVariant.string "dflt") none [] =
      (some (PyObject.sipQVariant (QVariant.string "dflt")), [Event.settingsValue "absent"]) :=
  ⟨(qsettings_value_no_type sampleRuntime sampleStore "nested" QVariant.invalid []).1,
    (qsettings_value_no_type sampleRuntime sampleStore "absent" (QVariant.string "dflt") []).1⟩

/-- C9: when a type specification is supplied and parsing it fails,
`qpycore_qsettings_value` fails and the record of external calls is left as it
was: no store lookup (and no other call) is made. -/
theorem qsettings_value_parse_failure (rt : Runtime) (qset : QSettings) (key : String)
    (defaultValue : QVariant) (ty : PyObject) (tr : Trace)
    (hparse : rt.Chimera_parse ty = none) :
    qpycore_qsettings_value rt qset key defaultValue (some ty) tr = (none, tr) := by
  simp [qpycore_qsettings_value, hparse]

/-- Witness for C9 on the sample runtime: a type object the parser does not
know, asked for a stored key. -/
theorem qsettings_value_parse_failure_witness :
    sampleRuntime.Chimera_parse (PyObject.type "complex") = none ∧
    qpycore_qsettings_value sampleRuntime sampleStore "ints" QVariant.invalid
      (some (PyObject.type "complex")) [] = (none, []) :=
  ⟨rfl, qsettings_value_parse_failure sampleRuntime sampleStore "ints" QVariant.invalid
    (PyObject.type "complex") [] rfl⟩

/-- C6: for a requested built-in type other than string-list (generic list
included) and strings s1..sn, given that `QVariant::convert` turns a string
list into the list of its strings as string variants, the object
`qpycore_qsettings_value` returns when the store yields the string-list
variant s1..sn is the object it returns when the store yields the generic list
of the string variants s1..sn, under the same request. -/
theorem qsettings_value_string_list_as_list (rt : Runtime) (qset qset' : QSettings)
    (key key' : String) (defaultValue defaultValue' : QVariant) (ty : PyObject) (ct : Chimera)
    (tr tr' : Trace) (ss : List String)
    (hparse : rt.Chimera_parse ty = some ct)
    (hbuiltin : ct.metatype < QVariant_UserType)
    (hwanted : ct.metatype ≠ QVariant_StringList)
    (hqt : (rt.QVariant_convert (QVariant.stringList ss) QVariant_List).2 =
      QVariant.list (ss.map QVariant.string))
    (hstored : qset.value key defaultValue = QVariant.stringList ss)
    (hstored' : qset'.value key' defaultValue' = QVariant.list (ss.map QVariant.string)) :
    (qpycore_qsettings_value rt qset key defaultValue (some ty) tr).1 =
      (qpycore_qsettings_value rt qset' key' defaultValue' (some ty) tr').1 := by
  simp only [qpycore_qsettings_value, hparse, hbuiltin, if_true, hstored, hstored', normalise,
    QVariant.type, hwanted, hqt, ne_eq, not_false_eq_true, and_self, and_true, QVariant.toList]
  by_cases hl : ct.metatype = QVariant_List
  · simp only [hl, not_true_eq_false, false_and, if_false]
    have h8 : ¬ (QVariant_List : Int) = QVariant_Map := by decide
    have h28 : ¬ (QVariant_List : Int) = QVariant_Hash := by decide
    have h11 : ¬ (QVariant_List : Int) = QVariant_StringList := by decide
    simp only [h8, h28, h11, and_false, if_false]
    exact (convert_fst rt ct _ _).trans (convert_fst rt ct _ _).symm
  · have h11 : ¬ (QVariant_List : Int) = QVariant_StringList := by decide
    simp only [hl, not_false_eq_true, true_and, if_true, h11, and_false, if_false]
    exact convert_list_fst rt ct _ _ _

/-- Witness for C6 on the sample runtime: the stored string list ["a", "b"]
and the stored list of the strings "a" and "b", both requested as `list`. -/
theorem qsettings_value_string_list_as_list_witness :
    (qpycore_qsettings_value sampleRuntime sampleStore "names" QVariant.invalid
        (some (PyObject.type "list")) []).1 =
      (qpycore_qsettings_value sampleRuntime sampleStore "strings" QVariant.invalid
        (some (PyObject.type "list")) []).1 ∧
    (qpycore_qsettings_value sampleRuntime sampleStore "names" QVariant.invalid
        (some (PyObject.type "list")) []).1 =
      some (PyObject.list [some (PyObject.unicode "a"), some (PyObject.unicode "b")]) :=
  ⟨qsettings_value_string_list_as_list sampleRuntime sampleStore sampleStore "names" "strings"
      QVariant.invalid QVariant.invalid (PyObject.type "list") (sampleChimera QVariant_List)
      [] [] ["a", "b"] rfl (by decide) (by decide) rfl rfl rfl,
    rfl⟩

/-- C3, as stated, fails: on the runtime whose list allocation fails, each of
the elements 1, 2 and 3 converts under the integer descriptor, yet
`convert_list` returns failure, and no element was attempted. -/
theorem convert_list_allocation_counterexample :
    (convert noListRuntime (sampleChimera 2) (QVariant.int 1) []).1 = some (PyObject.long 1) ∧
    (convert noListRuntime (sampleChimera 2) (QVariant.int 2) []).1 = some (PyObject.long 2) ∧
    (convert noListRuntime (sampleChimera 2) (QVariant.int 3) []).1 = some (PyObject.long 3) ∧
    convert_list noListRuntime (sampleChimera 2)
      [QVariant.int 1, QVariant.int 2, QVariant.int 3] [] = (none, []) :=
  ⟨rfl, rfl, rfl, rfl⟩

/-- C3, amended: when the allocation of the output list fails, `convert_list`
fails without attempting any element.  When it succeeds, `convert_list` is the
short-circuiting element-wise map of `convert`: if every element converts, the
result is a list of the source's length whose i-th item is `convert` of the
i-th source element with the same descriptor, every element's calls being
recorded in order; if some element fails after a prefix that converts, the
result is failure and the recorded calls are those of the prefix and of the
failing element, the last one being the failed descriptor call, with no call
for any later element. -/
theorem convert_list_short_circuit_map (rt : Runtime) (ct : Chimera) (value : List QVariant)
    (tr : Trace) :
    (rt.PyList_New_ok value.length = false → convert_list rt ct value tr = (none, tr)) ∧
    (rt.PyList_New_ok value.length = true →
      (convert_list rt ct value tr =
        match mapConvert rt ct value tr with
        | (some els, tr1) => (some (PyObject.list (els.map some)), tr1)
        | (none, tr1) => (none, tr1)) ∧
      ((∀ v ∈ value, (convert rt ct v []).1 ≠ none) →
        ∃ items : List (Option PyObject),
          convert_list rt ct value tr =
            (some (PyObject.list items), tr ++ convertCalls rt ct value) ∧
          items.length = value.length ∧
          ∀ (i : Nat) (h : i < value.length),
            items[i]? = some (convert rt ct (value.get ⟨i, h⟩) []).1 ∧
            (convert rt ct (value.get ⟨i, h⟩) []).1 ≠ none) ∧
      (∀ (pre : List QVariant) (x : QVariant) (post : List QVariant),
        value = pre ++ x :: post → (∀ v ∈ pre, (convert rt ct v []).1 ≠ none) →
        (convert rt ct x []).1 = none →
        convert_list rt ct value tr = (none, tr ++ convertCalls rt ct (pre ++ [x])) ∧
        convertCalls rt ct (pre ++ [x]) = convertCalls rt ct pre ++ (convert rt ct x []).2)) := by
  refine ⟨fun h => by simp [convert_list, h], fun hnew => ⟨?_, ?_, ?_⟩⟩
  · exact convert_list_eq_map rt ct value tr hnew
  · intro hall
    refine ⟨value.map (fun v => (convert rt ct v []).1),
      convert_list_all rt ct value tr hnew hall, by simp, ?_⟩
    intro i h
    exact ⟨by simp [List.getElem?_map, List.getElem?_eq_getElem h],
      hall _ (List.get_mem value i h)⟩
  · intro pre x post hval hpre hx
    subst hval
    refine ⟨convert_list_fail rt ct pre x post tr hnew hpre hx, ?_⟩
    simp [convertCalls_append, convertCalls]

/-- Witness for the amended C3 on the sample runtime: the list [1, 2, "bad"]
requested as integer fails as a whole once "bad" is rejected, and [1, 2, 3]
followed by "never" after a failing "bad" never reaches "never". -/
theorem convert_list_short_circuit_map_witness :
    convert_list sampleRuntime (sampleChimera 2)
        [QVariant.int 1, QVariant.int 2, QVariant.string "bad", QVariant.string "never"] [] =
      (none, [Event.variantConvert (QVariant.int 1) 2, Event.toPyObject 2 (QVariant.int 1),
        Event.variantConvert (QVariant.int 2) 2, Event.toPyObject 2 (QVariant.int 2),
        Event.variantConvert (QVariant.string "bad") 2,
        Event.toPyObject 2 (QVariant.string "bad")]) ∧
    (∃ items : List (Option PyObject),
      convert_list sampleRuntime (sampleChimera 2) [QVariant.int 1, QVariant.int 2] [] =
        (some (PyObject.list items),
          [] ++ convertCalls sampleRuntime (sampleChimera 2) [QVariant.int 1, QVariant.int 2]) ∧
      items.length = 2) :=
  ⟨(((convert_list_short_circuit_map sampleRuntime (sampleChimera 2)
        [QVariant.int 1, QVariant.int 2, QVariant.string "bad", QVariant.string "never"] []).2
        rfl).2.2 [QVariant.int 1, QVariant.int 2] (QVariant.string "bad")
        [QVariant.string "never"] rfl (by
          intro v hv
          simp only [List.mem_cons, List.mem_singleton, List.not_mem_nil, or_false] at hv
          rcases hv with rfl | rfl
          · exact Option.some_ne_none (PyObject.long 1)
          · exact Option.some_ne_none (PyObject.long 2)) rfl).1,
    (((convert_list_short_circuit_map sampleRuntime (sampleChimera 2)
        [QVariant.int 1, QVariant.int 2] []).2 rfl).2.1 (by
          intro v hv
          simp only [List.mem_cons, List.mem_singleton, List.not_mem_nil, or_false] at hv
          rcases hv with rfl | rfl
          · exact Option.some_ne_none (PyObject.long 1)
          · exact Option.some_ne_none (PyObject.long 2))).imp
      (fun _ h => ⟨h.1, h.2.1⟩)⟩

/-- C7, as stated, fails: on the runtime whose dict allocation fails, the key
"x" boxes, its value 1 converts under the integer descriptor and the insertion
would succeed, yet `convert_map` returns failure. -/
theorem convert_map_allocation_counterexample :
    sipConvertFromNewType noDictRuntime (PyObject.sipQString "x") =
      some (PyObject.sipQString "x") ∧
    (convert noDictRuntime (sampleChimera 2) (QVariant.int 1) []).1 = some (PyObject.long 1) ∧
    PyDict_SetItem noDictRuntime [] (PyObject.sipQString "x") (PyObject.long 1) =
      (0, [(PyObject.sipQString "x", PyObject.long 1)]) ∧
    convert_map noDictRuntime (sampleChimera 2) [("x", QVariant.int 1)] [] = (none, []) :=
  ⟨rfl, rfl, rfl, rfl⟩

/-- C7, amended: when the allocation of the output dict fails, `convert_map`
fails.  When it succeeds, for a map with one value per key in which every key
boxes, every value converts and every insertion succeeds, `convert_map`
returns a dict with exactly one entry per source entry, in the source's order
and with no other entry: the entry for the source key k with value v has the
boxed k as its key and `convert` of v, with the same descriptor, as its
value. -/
theorem convert_map_entries (rt : Runtime) (ct : Chimera) (m : List (String × QVariant))
    (tr : Trace) :
    (rt.PyDict_New_ok = false → convert_map rt ct m tr = (none, tr)) ∧
    (rt.PyDict_New_ok = true →
      (m.map Prod.fst).Nodup →
      (∀ e ∈ m, sipConvertFromNewType rt (PyObject.sipQString e.1) ≠ none) →
      (∀ e ∈ m, (convert rt ct e.2 []).1 ≠ none) →
      (∀ e ∈ m, ∀ (d : PyDict) (o : PyObject),
        (PyDict_SetItem rt d (PyObject.sipQString e.1) o).1 = 0) →
      ∃ items : PyDict,
        convert_map rt ct m tr =
          (some (PyObject.dict items), tr ++ convertCalls rt ct (m.map Prod.snd)) ∧
        items.map (fun p => (p.1, some p.2)) =
          m.map (fun e => (PyObject.sipQString e.1, (convert rt ct e.2 []).1)) ∧
        items.length = m.length) := by
  refine ⟨fun h => by simp [convert_map, h], ?_⟩
  intro hnew hnodup hbox hconv hins
  have hbox' : ∀ e ∈ m, rt.sipConvertFromNewType_ok (PyObject.sipQString e.1) = true := by
    intro e he
    have := hbox e he
    by_contra hc
    simp [sipConvertFromNewType, hc] at this
  have hins' : ∀ e ∈ m, ∀ (d : PyDict) (o : PyObject),
      rt.PyDict_SetItem_ok d (PyObject.sipQString e.1) o = true := by
    intro e he d o
    have := hins e he d o
    by_contra hc
    simp [PyDict_SetItem, hc] at this
  obtain ⟨items, hitems, hloop⟩ :=
    convert_dict_loop_all rt ct m [] tr (fun p hp => by simp at hp) hnodup hbox' hconv hins'
  refine ⟨items, ?_, hitems, ?_⟩
  · simp [convert_map, hnew, hloop]
  · simpa using congrArg List.length hitems

/-- Witness for the amended C7 on the sample runtime: the map with "x" ↦ 1 and
"y" ↦ 2 requested as integer. -/
theorem convert_map_entries_witness :
    ∃ items : PyDict,
      convert_map sampleRuntime (sampleChimera 2)
          [("x", QVariant.int 1), ("y", QVariant.int 2)] [] =
        (some (PyObject.dict items),
          [] ++ convertCalls sampleRuntime (sampleChimera 2)
            ([("x", QVariant.int 1), ("y", QVariant.int 2)].map Prod.snd)) ∧
      items.map (fun p => (p.1, some p.2)) =
        [("x", QVariant.int 1), ("y", QVariant.int 2)].map
          (fun e => (PyObject.sipQString e.1,
            (convert sampleRuntime (sampleChimera 2) e.2 []).1)) ∧
      items.length = [("x", QVariant.int 1), ("y", QVariant.int 2)].length :=
  (convert_map_entries sampleRuntime (sampleChimera 2)
      [("x", QVariant.int 1), ("y", QVariant.int 2)] []).2 rfl (by decide)
    (by
      intro e he
      simp only [List.mem_cons, List.mem_singleton, List.not_mem_nil, or_false] at he
      rcases he with rfl | rfl
      · exact Option.some_ne_none (PyObject.sipQString "x")
      · exact Option.some_ne_none (PyObject.sipQString "y"))
    (by
      intro e he
      simp only [List.mem_cons, List.mem_singleton, List.not_mem_nil, or_false] at he
      rcases he with rfl | rfl
      · exact Option.some_ne_none (PyObject.long 1)
      · exact Option.some_ne_none (PyObject.long 2))
    (fun _ _ _ _ => rfl)

/-- C2 on the code: a value that fails to convert, or a key that fails to box,
makes `add_variant_to_dict` return 0, which `convert_map` does not take for a
failure: the entry is left out and a dict holding the other entries is
returned.  Only a failed insertion (return code -1) makes `convert_map`
fail. -/
theorem convert_map_drops_failed_entry :
    add_variant_to_dict sampleRuntime (sampleChimera 2) [] "a" (QVariant.string "bad") [] =
      (0, [], [Event.variantConvert (QVariant.string "bad") 2,
        Event.toPyObject 2 (QVariant.string "bad")]) ∧
    (convert_map sampleRuntime (sampleChimera 2)
        [("a", QVariant.string "bad"), ("b", QVariant.int 2)] []).1 =
      some (PyObject.dict [(PyObject.sipQString "b", PyObject.long 2)]) ∧
    add_variant_to_dict noKeyRuntime (sampleChimera 2) [] "a" (QVariant.int 1) [] = (0, [], []) ∧
    (convert_map noKeyRuntime (sampleChimera 2)
        [("a", QVariant.int 1), ("b", QVariant.int 2)] []).1 =
      some (PyObject.dict [(PyObject.sipQString "b", PyObject.long 2)]) ∧
    (convert_map { sampleRuntime with PyDict_SetItem_ok := fun _ _ _ => false }
        (sampleChimera 2) [("a", QVariant.int 1), ("b", QVariant.int 2)] []).1 = none :=
  ⟨rfl, rfl, rfl, rfl, rfl⟩

/-- C10, as stated, fails: on the sample runtime the stored list
[[1, 2], [3]] requested as integer does not come back as the list of the
element-wise conversions of [1, 2] and of [3] (which both exist); each inner
list is handed whole to the integer descriptor, which rejects it, and the call
fails after the first one. -/
theorem nested_list_counterexample :
    (convert_list sampleRuntime (sampleChimera 2) [QVariant.int 1, QVariant.int 2] []).1 =
      some (PyObject.list [some (PyObject.long 1), some (PyObject.long 2)]) ∧
    (convert_list sampleRuntime (sampleChimera 2) [QVariant.int 3] []).1 =
      some (PyObject.list [some (PyObject.long 3)]) ∧
    qpycore_qsettings_value sampleRuntime sampleStore "nested" QVariant.invalid
        (some (PyObject.type "int")) [] =
      (none, [Event.settingsValue "nested",
        Event.variantConvert (QVariant.list [QVariant.int 1, QVariant.int 2]) 2,
        Event.toPyObject 2 (QVariant.list [QVariant.int 1, QVariant.int 2])]) :=
  ⟨rfl, rfl, rfl⟩

/-- C10, amended: the explicit type is applied to the elements of the
top-level list only.  For a requested built-in type other than list and a
retrieved list whose elements are themselves lists, the call is `convert_list`
of those elements; `convert` hands each inner list to the descriptor as one
variant (coerced as a whole if that succeeds, unchanged otherwise) in a single
descriptor call, without converting the inner list's own elements; and when
the output list is allocated and every inner list converts so, the result
holds those conversions in order. -/
theorem nested_list_top_level_only (rt : Runtime) (qset : QSettings) (key : String)
    (defaultValue : QVariant) (ty : PyObject) (ct : Chimera) (tr : Trace)
    (inners : List (List QVariant))
    (hparse : rt.Chimera_parse ty = some ct)
    (hbuiltin : ct.metatype < QVariant_UserType)
    (hwanted : ct.metatype ≠ QVariant_List)
    (hstored : qset.value key defaultValue = QVariant.list (inners.map QVariant.list)) :
    qpycore_qsettings_value rt qset key defaultValue (some ty) tr =
      convert_list rt ct (inners.map QVariant.list) (tr ++ [Event.settingsValue key]) ∧
    (∀ (inner : List QVariant) (tr1 : Trace),
      convert rt ct (QVariant.list inner) tr1 =
        (ct.toPyObject
          (if (rt.QVariant_convert (QVariant.list inner) ct.metatype).1 = true then
            (rt.QVariant_convert (QVariant.list inner) ct.metatype).2
          else QVariant.list inner),
        tr1 ++ [Event.variantConvert (QVariant.list inner) ct.metatype,
          Event.toPyObject ct.metatype
            (if (rt.QVariant_convert (QVariant.list inner) ct.metatype).1 = true then
              (rt.QVariant_convert (QVariant.list inner) ct.metatype).2
            else QVariant.list inner)])) ∧
    (rt.PyList_New_ok inners.length = true →
      (∀ inner ∈ inners, (convert rt ct (QVariant.list inner) []).1 ≠ none) →
      qpycore_qsettings_value rt qset key defaultValue (some ty) tr =
        (some (PyObject.list
            (inners.map (fun inner => (convert rt ct (QVariant.list inner) []).1))),
          tr ++ [Event.settingsValue key] ++ convertCalls rt ct (inners.map QVariant.list))) := by
  have h11 : ¬ (QVariant_List : Int) = QVariant_StringList := by decide
  have main : qpycore_qsettings_value rt qset key defaultValue (some ty) tr =
      convert_list rt ct (inners.map QVariant.list) (tr ++ [Event.settingsValue key]) := by
    simp [qpycore_qsettings_value, hparse, hbuiltin, hstored, normalise, QVariant.type, h11,
      hwanted, QVariant.toList]
  refine ⟨main, ?_, ?_⟩
  · intro inner tr1
    cases h : (rt.QVariant_convert (QVariant.list inner) ct.metatype).1 <;> simp [convert, h]
  · intro hnew hall
    rw [main, convert_list_all rt ct _ _ (by simpa using hnew)
      (by
        intro v hv
        obtain ⟨inner, hin, rfl⟩ := List.mem_map.mp hv
        exact hall inner hin)]
    simp [List.map_map, Function.comp_def]

/-- Witness for the amended C10: on the sample runtime the stored list
[[1, 2], [3]] requested as integer is `convert_list` of its two inner lists;
on the lenient runtime, requested as `unicode`, each inner list comes back as
the descriptor renders it whole, its integers not made strings. -/
theorem nested_list_top_level_only_witness :
    qpycore_qsettings_value sampleRuntime sampleStore "nested" QVariant.invalid
        (some (PyObject.type "int")) [] =
      convert_list sampleRuntime (sampleChimera 2)
        ([[QVariant.int 1, QVariant.int 2], [QVariant.int 3]].map QVariant.list)
        ([] ++ [Event.settingsValue "nested"]) ∧
    (qpycore_qsettings_value lenientRuntime sampleStore "nested" QVariant.invalid
        (some (PyObject.type "unicode")) []).1 =
      some (PyObject.list
        [some (PyObject.list [some (PyObject.long 1), some (PyObject.long 2)]),
          some (PyObject.list [some (PyObject.long 3)])]) :=
  ⟨(nested_list_top_level_only sampleRuntime sampleStore "nested" QVariant.invalid
      (PyObject.type "int") (sampleChimera 2) []
      [[QVariant.int 1, QVariant.int 2], [QVariant.int 3]] rfl (by decide) (by decide) rfl).1,
    congrArg Prod.fst
      ((nested_list_top_level_only lenientRuntime sampleStore "nested" QVariant.invalid
        (PyObject.type "unicode") lenientChimera []
        [[QVariant.int 1, QVariant.int 2], [QVariant.int 3]] rfl (by decide) (by decide)
        rfl).2.2 rfl
        (by
          intro inner hin
          simp only [List.mem_cons, List.mem_singleton, List.not_mem_nil, or_false] at hin
          rcases hin with rfl | rfl
          · exact Option.some_ne_none
              (PyObject.list [some (PyObject.long 1), some (PyObject.long 2)])
          · exact Option.some_ne_none (PyObject.list [some (PyObject.long 3)])))⟩
